import Mathlib

/-
Verification of the bandit-training subsystem of the neuralmonkey repository
(files neuralmonkey/trainers/bandit_trainer.py and
neuralmonkey/trainers/generic_bandit_trainer.py), via a shallow embedding of
the relevant functions in Lean 4.

Conventions used throughout:
  * Python strings are modelled as lists of characters (PyStr), so every
    string operation the source performs (join, replace, split) is a
    structurally recursive, kernel-computable function here.
  * Machine floats of the source are modelled as rationals where the claims
    are about exact bookkeeping arithmetic, and as reals where the claims are
    about softmax log-probabilities.
  * TensorFlow tensors are modelled as functions out of Fin-index types, and
    the gradient/stop_gradient semantics of the REINFORCE score is modelled
    with forward-mode dual numbers (value plus directional derivative).
-/

/-! ## Definitions: the shallow embedding of the sources -/

/-- A Python string, modelled as its list of characters. -/
abbrev PyStr := List Char

/-- Modelled from the spec: the end-of-sequence sentinel token END_TOKEN
that the source takes from neuralmonkey.vocabulary (the vocabulary module is
not part of the sources; spec section 8 names the end token "</s>"). -/
def END_TOKEN : PyStr := ['<', '/', 's', '>']

/-- Modelled from the spec: the padding sentinel token PAD_TOKEN that the
source takes from neuralmonkey.vocabulary (the vocabulary module is not
part of the sources; the spec calls it the padding sentinel). -/
def PAD_TOKEN : PyStr := ['<', 'p', 'a', 'd', '>']

/-- Python " ".join: interleave a single space between the given strings. -/
def join_space : List PyStr → PyStr
  | [] => []
  | [t] => t
  | t :: ts => t ++ (' ' :: join_space ts)

/-- Python .replace("@@ ", ""): drop every (left-to-right, non-overlapping)
occurrence of the three-character byte-pair-encoding marker. -/
def bpe_collapse : PyStr → PyStr
  | '@' :: '@' :: ' ' :: rest => bpe_collapse rest
  | c :: rest => c :: bpe_collapse rest
  | [] => []

/-- Python .split(" "): split at every space, keeping empty fields; the
empty string splits to a list holding one empty string. -/
def split_on_space : PyStr → List PyStr
  | [] => [[]]
  | ' ' :: rest => [] :: split_on_space rest
  | c :: rest =>
    match split_on_space rest with
    | t :: ts => (c :: t) :: ts
    | [] => [[c]]

/-- The truncation loop shared by _score_with_reward_function and
_get_reward_from_service (bandit_trainer.py lines 102-111, 130-139): walk
the index sequence, translating indices through the vocabulary, and break at
the first END_TOKEN or PAD_TOKEN, keeping only the earlier tokens. -/
def truncate_at_sentinel (index_to_word : ℕ → PyStr) : List ℕ → List PyStr
  | [] => []
  | i :: rest =>
    if index_to_word i = END_TOKEN ∨ index_to_word i = PAD_TOKEN then []
    else index_to_word i :: truncate_at_sentinel index_to_word rest

/-- The local-mode de-tokenization pipeline of _score_with_reward_function
(bandit_trainer.py lines 113-114): join the kept tokens with spaces, collapse
the BPE marker, and re-split on spaces. -/
def detok_tokens (seq : List PyStr) : List PyStr :=
  split_on_space (bpe_collapse (join_space seq))

/-- _score_with_reward_function (bandit_trainer.py lines 87-117): the
(time, batch) arrays arrive here already transposed to per-batch-item rows,
so references and hypotheses are batches of index sequences; each pair is
truncated, de-tokenized, and handed (hypothesis first, wrapped in singleton
batch lists as in the source) to the user reward function, collecting one
rational per batch item in order. -/
def score_with_reward_function (index_to_word : ℕ → PyStr)
    (reward_function : List (List PyStr) → List (List PyStr) → ℚ)
    (references hypotheses : List (List ℕ)) : List ℚ :=
  (references.zip hypotheses).map (fun rh =>
    reward_function [detok_tokens (truncate_at_sentinel index_to_word rh.2)]
      [detok_tokens (truncate_at_sentinel index_to_word rh.1)])

/-- The request-payload construction of _get_reward_from_service
(bandit_trainer.py lines 126-140): per batch item, truncate source (under the
encoder vocabulary) and hypothesis (under the decoder vocabulary) at the
first sentinel and join each with spaces; note the source performs no
BPE collapse here. -/
def build_request_inputs (dec_vocab src_vocab : ℕ → PyStr)
    (sources hypotheses : List (List ℕ)) : List (PyStr × PyStr) :=
  (sources.zip hypotheses).map (fun sh =>
    (join_space (truncate_at_sentinel src_vocab sh.1),
     join_space (truncate_at_sentinel dec_vocab sh.2)))

/-- Spec-side predicate: index i maps to a regular (non-sentinel) token. -/
def sentinel_free (index_to_word : ℕ → PyStr) (i : ℕ) : Bool :=
  ! decide (index_to_word i = END_TOKEN ∨ index_to_word i = PAD_TOKEN)

/-- Concrete vocabulary used in the spec's de-tokenization example. -/
def ex_vocab : ℕ → PyStr := fun i =>
  if i = 0 then ['a', '@', '@']
  else if i = 1 then ['b']
  else if i = 2 then END_TOKEN
  else ['c']

/-- Spec-side predicate: the string contains an occurrence of the
byte-pair-encoding marker "@@ ". -/
def has_marker : PyStr → Bool
  | '@' :: '@' :: ' ' :: _ => true
  | _ :: rest => has_marker rest
  | [] => false

/-- A trainable variable, identified (as in the Python dict) by identity. -/
abbrev Var := ℕ

/-- The Gradients type of generic_bandit_trainer.py: a list of
(tensor-or-None, variable) pairs; gradient tensors are modelled as scalars. -/
abbrev Grad := List (Option ℚ × Var)

/-- tf.clip_by_norm on a scalar tensor: rescale to norm c when the norm
(here the absolute value) exceeds c, otherwise leave unchanged. -/
def clip_by_norm (t c : ℚ) : ℚ :=
  if c < |t| then t * (c / |t|) else t

/-- One `summed_dict[var] += tensor` step of _sum_gradients: a Python dict
(insertion-ordered) modelled as an association list; an existing key is
updated in place, a new key is appended. -/
def dict_add : List (Var × ℚ) → Var → ℚ → List (Var × ℚ)
  | [], v, t => [(v, t)]
  | (v0, t0) :: rest, v, t =>
    if v0 = v then (v0, t0 + t) :: rest else (v0, t0) :: dict_add rest v t

/-- The inner-loop body of _sum_gradients: skip a None tensor, otherwise add
it into the dict under its variable. -/
def add_entry (acc : List (Var × ℚ)) (p : Option ℚ × Var) : List (Var × ℚ) :=
  match p.1 with
  | none => acc
  | some t => dict_add acc p.2 t

/-- _sum_gradients (generic_bandit_trainer.py lines 135-144): fold every
(tensor, var) pair of every gradient list into the dict, skipping None
tensors, and return the dict items as (tensor, var) pairs. -/
def sum_gradients (gradients_list : List Grad) : List (ℚ × Var) :=
  (gradients_list.foldl (fun acc gradients => gradients.foldl add_entry acc) []).map
    (fun e => (e.2, e.1))

/-- The clipping comprehension of GenericBanditTrainer.__init__ (lines
81-83): clip each present objective gradient per-tensor and drop None
entries; applied only to the objective's gradients. -/
def clip_gradients (g : Grad) (c : ℚ) : Grad :=
  g.filterMap (fun p =>
    match p.1 with
    | none => none
    | some t => some (some (clip_by_norm t c), p.2))

/-- The gradient pipeline of GenericBanditTrainer.__init__ (lines 76-95):
under a truthy (nonzero) clip_norm the objective gradients are clipped, the
regularizer gradients are not, and the update op applies the merge of the
two lists. -/
def trainer_merged_gradients (clip_norm : ℚ) (gradients reg_gradients : Grad) :
    List (ℚ × Var) :=
  let gradients2 := if clip_norm ≠ 0 then clip_gradients gradients clip_norm else gradients
  sum_gradients [gradients2, reg_gradients]

/-- The construction-time validation of GenericBanditTrainer.__init__
(lines 79-80): Python runs the assert clip_norm > 0.0 only under the truthy
test of clip_norm, so construction succeeds when clip_norm is zero (or the
default False, modelled as 0) or strictly positive. -/
def construction_succeeds (clip_norm : ℚ) : Bool :=
  if clip_norm ≠ 0 then decide (0 < clip_norm) else true

/-- The variables carrying a present (non-None) gradient in a list. -/
def present_vars (g : Grad) : List Var :=
  g.filterMap (fun p =>
    match p.1 with
    | none => none
    | some _ => some p.2)

/-- tf.reduce_sum of a rank-1 (batch) tensor. -/
def reduce_sum_vec (B : ℕ) (x : Fin B → ℚ) : ℚ := ∑ b, x b

/-- tf.reduce_mean over axis 0 of a rank-1 (batch) tensor: a scalar, the
mean over the batch. -/
def reduce_mean_vec (B : ℕ) (x : Fin B → ℚ) : ℚ := (∑ b, x b) / (B : ℚ)

/-- tf.reduce_mean over axes [0, 1] of a rank-2 (samples, batch) tensor: a
scalar, the mean over all samples-times-batch entries. -/
def reduce_mean_all (S B : ℕ) (x : Fin S → Fin B → ℚ) : ℚ :=
  (∑ s, ∑ b, x s b) / ((S : ℚ) * (B : ℚ))

/-- tf.reduce_sum applied to a rank-0 (scalar) tensor is the scalar itself
(there is no axis left to sum over). -/
def reduce_sum_scalar (x : ℚ) : ℚ := x

/-- One accumulator update: counter += batch_size and sum += quantity (the
pair of tf.assign_add calls each accumulator site performs). -/
def reward_state_step (st : ℚ × ℚ) (batch_size total : ℚ) : ℚ × ℚ :=
  (st.1 + batch_size, st.2 + total)

/-- The expected_loss_objective accumulator update (bandit_trainer.py lines
170-174): counter += batch_size, sum += reduce_sum(sample_reward). -/
def expected_loss_accumulate (B : ℕ) (st : ℚ × ℚ) (batch_size : ℚ)
    (sample_reward : Fin B → ℚ) : ℚ × ℚ :=
  (st.1 + batch_size, st.2 + reduce_sum_vec B sample_reward)

/-- The dc_objective logged-reward accumulator update (bandit_trainer.py
lines 286-291): counter += batch_size and
sum += reduce_sum(reduce_mean(rewards, axis=0)); rewards is the rank-1
(batch) tensor of logged rewards, so the inner reduce_mean is already the
scalar batch mean and the outer reduce_sum leaves it unchanged. -/
def dc_logged_accumulate (B : ℕ) (st : ℚ × ℚ) (batch_size : ℚ)
    (rewards : Fin B → ℚ) : ℚ × ℚ :=
  (st.1 + batch_size, st.2 + reduce_sum_scalar (reduce_mean_vec B rewards))

/-- The dc_objective estimated-reward accumulator update (bandit_trainer.py
lines 353-358): counter += batch_size and
sum += reduce_sum(reduce_mean(samples_reward, axis=[0,1])); the inner
reduce_mean over both axes is already the scalar mean of all entries and the
outer reduce_sum leaves it unchanged. -/
def dc_estimated_accumulate (S B : ℕ) (st : ℚ × ℚ) (batch_size : ℚ)
    (samples_reward : Fin S → Fin B → ℚ) : ℚ × ℚ :=
  (st.1 + batch_size, st.2 + reduce_sum_scalar (reduce_mean_all S B samples_reward))

/-- Spec-side quantity named by the claim for the multi-sample accumulator:
the mean over samples, then the sum over the batch. -/
def mean_over_samples_then_sum_over_batch (S B : ℕ) (x : Fin S → Fin B → ℚ) : ℚ :=
  ∑ b, (∑ s, x s b) / (S : ℚ)

/-- The baseline read off an accumulator pair (bandit_trainer.py lines
175-176, 292, 359): sum divided by the counter floored at one. -/
def baseline_value (st : ℚ × ℚ) : ℚ := st.2 / max st.1 1

/-- k accumulations from the zero state, each with the same batch size b and
the same per-batch total reward s. -/
def accumulate_k : ℕ → ℚ → ℚ → ℚ × ℚ
  | 0, _, _ => (0, 0)
  | k + 1, b, s => reward_state_step (accumulate_k k b s) b s

/-- Concrete (samples, batch) reward tensor for the C2 evaluation. -/
def ex_samples : Fin 2 → Fin 2 → ℚ := ![![1, 3], ![5, 7]]

/-- Concrete logged-reward batch vector for the C2 evaluation. -/
def ex_rewards : Fin 2 → ℚ := ![1, 3]

/-- A JSON value, as produced by json.JSONDecoder().decode. -/
inductive JVal where
  | num (q : ℚ)
  | str (s : PyStr)
  | arr (xs : List JVal)
  | obj (fields : List (PyStr × JVal))

/-- An HTTP response as seen by _get_reward_from_service: a status code and
the decoded body; a body on which the JSON decode raises is modelled as
none. -/
structure HttpResponse where
  status : ℕ
  content : Option JVal

/-- The characters of the JSON field name "predictions". -/
def predictions_key : PyStr :=
  ['p', 'r', 'e', 'd', 'i', 'c', 't', 'i', 'o', 'n', 's']

/-- Python dict subscript on a decoded JSON object (with json's
last-duplicate-wins key semantics); none models the KeyError raise. -/
def obj_get (fields : List (PyStr × JVal)) (key : PyStr) : Option JVal :=
  fields.foldl (fun acc f => if f.1 = key then some f.2 else acc) none

/-- Python float(r) on a JSON value: a number converts; the other shapes the
claims exercise raise (numeric strings, which Python would also convert, do
not occur in the claims and are modelled as failures). -/
def py_float : JVal → Option ℚ
  | JVal.num q => some q
  | _ => none

/-- The body of the list comprehension [float(r) for r in ...]: convert
left to right, any float() failure raising. -/
def float_list : List JVal → Option (List ℚ)
  | [] => some []
  | x :: rest =>
    match py_float x, float_list rest with
    | some q, some qs => some (q :: qs)
    | _, _ => none

/-- The list comprehension [float(r) for r in ...] over the predictions
value: iterating anything but a JSON array (or a float() failure inside)
raises. -/
def parse_predictions : JVal → Option (List ℚ)
  | JVal.arr xs => float_list xs
  | _ => none

/-- The response handling of _get_reward_from_service (bandit_trainer.py
lines 146-151, identical copy at 268-273): decode the body, subscript the
"predictions" field, convert each element with float; any of these raising
aborts the reward computation; the status code of the response is never
inspected. -/
def get_reward_from_service_response (resp : HttpResponse) : Option (List ℚ) :=
  match resp.content with
  | none => none
  | some (JVal.obj fields) =>
    match obj_get fields predictions_key with
    | none => none
    | some v => parse_predictions v
  | some _ => none

structure Dual where
  val : ℝ
  deriv : ℝ

noncomputable def Dual.sub (x y : Dual) : Dual :=
  ⟨x.val - y.val, x.deriv - y.deriv⟩

noncomputable def Dual.neg (x : Dual) : Dual :=
  ⟨-x.val, -x.deriv⟩

noncomputable def Dual.mul (x y : Dual) : Dual :=
  ⟨x.val * y.val, x.deriv * y.val + x.val * y.deriv⟩

noncomputable def Dual.exp (x : Dual) : Dual :=
  ⟨Real.exp x.val, x.deriv * Real.exp x.val⟩

noncomputable def Dual.log (x : Dual) : Dual :=
  ⟨Real.log x.val, x.deriv / x.val⟩

noncomputable def Dual.stop_gradient (x : Dual) : Dual :=
  ⟨x.val, 0⟩

noncomputable def Dual.sum (n : ℕ) (f : Fin n → Dual) : Dual :=
  ⟨∑ i, (f i).val, ∑ i, (f i).deriv⟩

/-- tf.nn.sparse_softmax_cross_entropy_with_logits at one (time, batch)
position: the negative log of the softmax probability of the label, i.e.
log of the sum of exponentiated logits minus the label's logit. -/
noncomputable def sparse_softmax_cross_entropy (V : ℕ) (label : Fin V)
    (logits : Fin V → Dual) : Dual :=
  Dual.sub (Dual.log (Dual.sum V (fun v => Dual.exp (logits v)))) (logits label)

/-- reinforce_score (bandit_trainer.py lines 21-58): subtract the baseline
from the reward when one is given; per-token log-probabilities are the
negated sparse softmax cross-entropies of the decoded indices against the
logits; sum them over the time axis with no masking; multiply the
stop-gradiented negated reward by the sentence log-probabilities. -/
noncomputable def reinforce_score (T B V : ℕ) (reward : Fin B → Dual)
    (baseline : Option (Fin B → Dual)) (decoded : Fin T → Fin B → Fin V)
    (logits : Fin T → Fin B → Fin V → Dual) : Fin B → Dual :=
  let reward2 : Fin B → Dual :=
    match baseline with
    | some bl => fun b => Dual.sub (reward b) (bl b)
    | none => reward
  let word_logprobs : Fin T → Fin B → Dual := fun t b =>
    Dual.neg (sparse_softmax_cross_entropy V (decoded t b) (logits t b))
  let sent_logprobs : Fin B → Dual := fun b =>
    Dual.sum T (fun t => word_logprobs t b)
  fun b => Dual.mul (Dual.stop_gradient (Dual.neg (reward2 b))) (sent_logprobs b)

/-! ## Theorems -/

/-- The break-at-sentinel loop is the takeWhile of the sentinel-free
predicate, mapped through the vocabulary. -/
theorem truncate_eq_takeWhile (v : ℕ → PyStr) (seq : List ℕ) :
    truncate_at_sentinel v seq = (seq.takeWhile (sentinel_free v)).map v := by
  induction seq with
  | nil => rfl
  | cons i rest ih =>
    by_cases h : v i = END_TOKEN ∨ v i = PAD_TOKEN
    · simp [truncate_at_sentinel, List.takeWhile, sentinel_free, h]
    · simp [truncate_at_sentinel, List.takeWhile, sentinel_free, h, ih]

/-- Shared characterization of the local scorer: it is exactly the map over
zipped batch items of the reward function applied to the de-tokenized
takeWhile truncations (hypothesis argument first). -/
theorem score_with_reward_function_eq (v : ℕ → PyStr)
    (rf : List (List PyStr) → List (List PyStr) → ℚ)
    (references hypotheses : List (List ℕ)) :
    score_with_reward_function v rf references hypotheses =
      (references.zip hypotheses).map (fun rh =>
        rf [detok_tokens ((rh.2.takeWhile (sentinel_free v)).map v)]
          [detok_tokens ((rh.1.takeWhile (sentinel_free v)).map v)]) := by
  simp [score_with_reward_function, truncate_eq_takeWhile]

/-- On marker-free strings the BPE collapse is the identity. -/
theorem bpe_collapse_of_no_marker (s : PyStr) (h : has_marker s = false) :
    bpe_collapse s = s := by
  induction s using bpe_collapse.induct with
  | case1 rest ih =>
    simp [has_marker] at h
  | case2 c rest hne ih =>
    rw [bpe_collapse]
    · rw [has_marker] at h
      · rw [ih h]
      · exact hne
    · exact hne
  | case3 => rfl

/-- C8: in local scoring mode, each batch item's reference and hypothesis
index sequences are truncated at the first end-of-sequence or padding token
(that token and all later ones dropped), joined with spaces, the BPE marker
"@@ " collapsed, re-split into tokens, and the user reward function invoked
with (hypothesis-tokens, reference-tokens), collecting one value per batch
item in batch order; and the sequence spelled a@@, b, end, c truncates to
the two tokens a@@, b and de-tokenizes to the string ab. -/
theorem C8_local_scorer :
    (∀ (v : ℕ → PyStr) (rf : List (List PyStr) → List (List PyStr) → ℚ)
      (references hypotheses : List (List ℕ)),
      score_with_reward_function v rf references hypotheses =
        (references.zip hypotheses).map (fun rh =>
          rf [detok_tokens ((rh.2.takeWhile (sentinel_free v)).map v)]
            [detok_tokens ((rh.1.takeWhile (sentinel_free v)).map v)])) ∧
    truncate_at_sentinel ex_vocab [0, 1, 2, 3] = [['a', '@', '@'], ['b']] ∧
    bpe_collapse (join_space (truncate_at_sentinel ex_vocab [0, 1, 2, 3])) = ['a', 'b'] ∧
    detok_tokens (truncate_at_sentinel ex_vocab [0, 1, 2, 3]) = [['a', 'b']] :=
  ⟨score_with_reward_function_eq, by decide, by decide, by decide⟩

/-- C10: if a hypothesis index sequence begins with the end-of-sequence or
padding token, its truncation is empty, and the local scorer invokes the
reward function with a token list holding exactly one empty string (the
empty join splits to a singleton empty string), not with an empty list. -/
theorem C10_empty_truncation (v : ℕ → PyStr)
    (rf : List (List PyStr) → List (List PyStr) → ℚ)
    (refs : List ℕ) (h0 : ℕ) (rest : List ℕ)
    (h : v h0 = END_TOKEN ∨ v h0 = PAD_TOKEN) :
    truncate_at_sentinel v (h0 :: rest) = [] ∧
    detok_tokens (truncate_at_sentinel v (h0 :: rest)) = [[]] ∧
    score_with_reward_function v rf [refs] [h0 :: rest] =
      [rf [[[]]] [detok_tokens (truncate_at_sentinel v refs)]] := by
  have ht : truncate_at_sentinel v (h0 :: rest) = [] := by
    simp [truncate_at_sentinel, h]
  refine ⟨ht, by rw [ht]; rfl, ?_⟩
  simp [score_with_reward_function, ht]
  rfl

/-- Witness for C10 at a concrete vocabulary, reward function and batch. -/
theorem C10_empty_truncation_witness :
    score_with_reward_function (fun _ => END_TOKEN)
      (fun hs _ => if hs = [[[]]] then 7 else 0) [[]] [[3]] = [7] := by
  rw [(C10_empty_truncation (fun _ => END_TOKEN)
    (fun hs _ => if hs = [[[]]] then 7 else 0) [] 3 [] (Or.inl rfl)).2.2]
  decide

/-- C7 counterexample: for the hypothesis sequence a@@, b the remote payload
string keeps the BPE marker (a@@ b) while local-mode de-tokenization
collapses it (ab), so the payload differs from the local-mode string. -/
theorem C7_counterexample :
    build_request_inputs ex_vocab ex_vocab [[2]] [[0, 1]] =
      [([], ['a', '@', '@', ' ', 'b'])] ∧
    bpe_collapse (join_space (truncate_at_sentinel ex_vocab [0, 1])) = ['a', 'b'] ∧
    (['a', '@', '@', ' ', 'b'] : PyStr) ≠ ['a', 'b'] := by
  refine ⟨by decide, by decide, by decide⟩

/-- C7 amended: remote mode truncates exactly as local mode (takeWhile of
the non-sentinel predicate) and joins with spaces, but does not collapse the
"@@ " marker; the payload string therefore agrees with the local-mode
de-tokenized string exactly on marker-free joins. -/
theorem C7_remote_detok_amended :
    (∀ (dv sv : ℕ → PyStr) (sources hypotheses : List (List ℕ)),
      build_request_inputs dv sv sources hypotheses =
        (sources.zip hypotheses).map (fun sh =>
          (join_space ((sh.1.takeWhile (sentinel_free sv)).map sv),
           join_space ((sh.2.takeWhile (sentinel_free dv)).map dv)))) ∧
    (∀ s : PyStr, has_marker s = false → bpe_collapse s = s) := by
  constructor
  · intro dv sv sources hypotheses
    simp [build_request_inputs, truncate_eq_takeWhile]
  · exact bpe_collapse_of_no_marker

/-- Witness for C7's amended statement at a concrete marker-free string. -/
theorem C7_remote_detok_witness :
    has_marker ['a', 'b'] = false ∧ bpe_collapse ['a', 'b'] = ['a', 'b'] :=
  ⟨by decide, C7_remote_detok_amended.2 ['a', 'b'] (by decide)⟩

/-- A variable is among the present variables exactly when some non-None
entry of the list carries it. -/
theorem mem_present_vars (g : Grad) (v : Var) :
    v ∈ present_vars g ↔ ∃ t, (some t, v) ∈ g := by
  constructor
  · intro hv
    obtain ⟨⟨op, v0⟩, ha, he⟩ := List.mem_filterMap.mp hv
    cases op with
    | none => simp at he
    | some t =>
      simp at he
      subst he
      exact ⟨t, ha⟩
  · rintro ⟨t, ht⟩
    exact List.mem_filterMap.mpr ⟨(some t, v), ht, rfl⟩

/-- Keys present after a dict_add step: the old keys, with the added key
appended when new. -/
theorem keys_dict_add (d : List (Var × ℚ)) (v : Var) (t : ℚ) :
    (dict_add d v t).map Prod.fst =
      if v ∈ d.map Prod.fst then d.map Prod.fst else d.map Prod.fst ++ [v] := by
  induction d with
  | nil => simp [dict_add]
  | cons e rest ih =>
    obtain ⟨v0, t0⟩ := e
    by_cases h : v0 = v
    · subst h
      simp [dict_add]
    · by_cases hv : v ∈ rest.map Prod.fst
      · simp [dict_add, h, ih, hv, Ne.symm h]
      · simp [dict_add, h, ih, hv, Ne.symm h]

theorem present_vars_cons_some (t : ℚ) (v : Var) (rest : Grad) :
    present_vars ((some t, v) :: rest) = v :: present_vars rest := rfl

theorem present_vars_cons_none (v : Var) (rest : Grad) :
    present_vars ((none, v) :: rest) = present_vars rest := rfl

/-- Keys present after folding one gradient list into the dict: the old keys
plus the variables of the present entries. -/
theorem keys_foldl_add_entry (g : Grad) (acc : List (Var × ℚ)) (v' : Var) :
    v' ∈ (g.foldl add_entry acc).map Prod.fst ↔
      v' ∈ acc.map Prod.fst ∨ v' ∈ present_vars g := by
  induction g generalizing acc with
  | nil => simp [present_vars]
  | cons p rest ih =>
    obtain ⟨op, v0⟩ := p
    cases op with
    | none =>
      rw [List.foldl_cons, ih, present_vars_cons_none]
      rfl
    | some t0 =>
      rw [List.foldl_cons, ih]
      have hstep : v' ∈ (add_entry acc (some t0, v0)).map Prod.fst ↔
          v' ∈ acc.map Prod.fst ∨ v' = v0 := by
        rw [show add_entry acc (some t0, v0) = dict_add acc v0 t0 from rfl, keys_dict_add]
        by_cases hv : v0 ∈ acc.map Prod.fst
        · rw [if_pos hv]
          constructor
          · exact Or.inl
          · rintro (hm | rfl)
            · exact hm
            · exact hv
        · rw [if_neg hv]
          simp
      rw [hstep, present_vars_cons_some]
      simp only [List.mem_cons]
      tauto

/-- Keys present after folding several gradient lists. -/
theorem keys_foldl_lists (ls : List Grad) (acc : List (Var × ℚ)) (v' : Var) :
    v' ∈ (ls.foldl (fun acc gradients => gradients.foldl add_entry acc) acc).map Prod.fst ↔
      v' ∈ acc.map Prod.fst ∨ v' ∈ ls.flatMap present_vars := by
  induction ls generalizing acc with
  | nil => simp
  | cons g rest ih =>
    rw [List.foldl_cons, ih, keys_foldl_add_entry]
    simp [List.mem_append]
    tauto

/-- Membership in the swapped (tensor, var) output in terms of dict keys. -/
theorem mem_swap_map (d : List (Var × ℚ)) (v : Var) :
    (∃ t, (t, v) ∈ d.map (fun e => (e.2, e.1))) ↔ v ∈ d.map Prod.fst := by
  constructor
  · rintro ⟨t, ht⟩
    obtain ⟨⟨a1, a2⟩, ha, he⟩ := List.mem_map.mp ht
    simp only [Prod.mk.injEq] at he
    exact List.mem_map.mpr ⟨(a1, a2), ha, he.2⟩
  · intro hv
    obtain ⟨⟨a1, a2⟩, ha, he⟩ := List.mem_map.mp hv
    exact ⟨a2, List.mem_map.mpr ⟨(a1, a2), ha, by simpa using he⟩⟩

/-- C6: merging gradient lists sums contributions per parameter and skips
None entries: merging the two lists of the spec example gives the claimed
result (the None entry passes the other source's value through unchanged),
and in general a parameter appears in the merged list exactly when some
source carries a present gradient for it. -/
theorem C6_sum_gradients :
    (∀ (p1 p2 : Var), p1 ≠ p2 → ∀ (g1 g2 g3 : ℚ),
      sum_gradients [[(some g1, p1), (none, p2)], [(some g2, p1), (some g3, p2)]] =
        [(g1 + g2, p1), (g3, p2)]) ∧
    (∀ (ls : List Grad) (v : Var),
      (∃ t, (t, v) ∈ sum_gradients ls) ↔ ∃ g ∈ ls, ∃ t, (some t, v) ∈ g) := by
  constructor
  · intro p1 p2 hne g1 g2 g3
    simp [sum_gradients, add_entry, dict_add, hne]
  · intro ls v
    rw [sum_gradients, mem_swap_map, keys_foldl_lists]
    simp [List.mem_flatMap, mem_present_vars]

/-- Witness for C6 at the spec's concrete example. -/
theorem C6_sum_gradients_witness :
    sum_gradients [[(some 1, 0), (none, 1)], [(some 2, 0), (some 3, 1)]] =
      [(3, 0), (3, 1)] := by
  have h := C6_sum_gradients.1 0 1 (by decide) 1 2 3
  norm_num at h
  exact h

/-- A clipped scalar gradient has norm at most the positive threshold. -/
theorem abs_clip_by_norm_le (t c : ℚ) (hc : 0 < c) : |clip_by_norm t c| ≤ c := by
  unfold clip_by_norm
  split
  · rename_i h
    have h0 : (0 : ℚ) < |t| := lt_trans hc h
    rw [abs_mul, abs_div, abs_abs, abs_of_pos hc, mul_comm, div_mul_cancel₀ _ h0.ne']
  · rename_i h
    exact le_of_not_lt h

/-- C3 counterexample: with clip threshold 1, objective gradient 10 and
regularizer gradient 10 on the same variable, the merged gradient the update
op applies is 11 = clip(10) + 10, whose norm exceeds the threshold: the
regularizer contribution is merged unclipped. -/
theorem C3_counterexample :
    trainer_merged_gradients 1 [(some 10, 0)] [(some 10, 0)] = [(11, 0)] ∧
    ¬(|(11 : ℚ)| ≤ 1) := by
  have hclip : clip_by_norm 10 1 = 1 := by
    rw [clip_by_norm]
    norm_num
  constructor
  · simp [trainer_merged_gradients, clip_gradients, sum_gradients, add_entry, dict_add, hclip]
    norm_num
  · norm_num

/-- C3 amended: under a positive clip threshold, every gradient contributed
by the objective is clipped per-tensor (to norm at most the threshold, None
entries dropped) before merging, and the update op applies the merge of the
clipped objective gradients with the UNCLIPPED regularizer gradients, which
pass through unchanged (so merged values can exceed the threshold). -/
theorem C3_clipping_amended (c : ℚ) (hc : 0 < c) :
    (∀ (g : Grad) (t : ℚ) (v : Var), (some t, v) ∈ clip_gradients g c → |t| ≤ c) ∧
    (∀ (g r : Grad),
      trainer_merged_gradients c g r = sum_gradients [clip_gradients g c, r]) ∧
    (∀ (t : ℚ) (v : Var), trainer_merged_gradients c [] [(some t, v)] = [(t, v)]) := by
  refine ⟨?_, ?_, ?_⟩
  · intro g t v hm
    obtain ⟨⟨op, v0⟩, ha, he⟩ := List.mem_filterMap.mp hm
    cases op with
    | none => simp at he
    | some t0 =>
      simp only [Option.some.injEq, Prod.mk.injEq] at he
      obtain ⟨ht, hv⟩ := he
      rw [← ht]
      exact abs_clip_by_norm_le t0 c hc
  · intro g r
    simp [trainer_merged_gradients, hc.ne']
  · intro t v
    simp [trainer_merged_gradients, hc.ne', clip_gradients, sum_gradients, add_entry, dict_add]

/-- Witness for C3's amended statement: with threshold 1 a lone regularizer
gradient passes through the merge unchanged. -/
theorem C3_clipping_witness :
    trainer_merged_gradients 1 [] [(some 5, 0)] = [(5, 0)] :=
  (C3_clipping_amended 1 (by norm_num)).2.2 5 0

/-- C9 counterexample: a zero clip threshold is falsy in Python, so the
construction-time assert is skipped and construction succeeds even though
the threshold is not strictly positive. -/
theorem C9_counterexample :
    construction_succeeds 0 = true ∧ ¬(0 < (0 : ℚ)) := by
  constructor
  · rfl
  · norm_num

/-- C9 amended: construction fails exactly for a strictly negative clip
threshold (nonzero, hence truthy, and failing the assert); a zero threshold
is silently treated as no clipping, with the merged gradients left exactly
as the unclipped merge. -/
theorem C9_clip_validation_amended :
    (∀ c : ℚ, construction_succeeds c = false ↔ c < 0) ∧
    (∀ (g r : Grad), trainer_merged_gradients 0 g r = sum_gradients [g, r]) := by
  constructor
  · intro c
    rcases lt_trichotomy c 0 with h | h | h
    · simp [construction_succeeds, h.ne, not_lt.mpr h.le, h]
    · subst h
      simp [construction_succeeds]
    · simp [construction_succeeds, h.ne', h.asymm, h]
  · intro g r
    simp [trainer_merged_gradients]

/-- Witness for C9's amended statement at the concrete threshold -1. -/
theorem C9_clip_validation_witness :
    construction_succeeds (-1) = false :=
  (C9_clip_validation_amended.1 (-1)).mpr (by norm_num)

/-- C2 evaluated at the failing input: with two samples over a batch of two
and sampled rewards 1,3 (sample 0) and 5,7 (sample 1), the dc_objective
estimated accumulator adds 4 (the mean of all four rewards) where the claim
requires the mean over samples then the sum over the batch, 8; and with
logged rewards 1,3 the logged accumulator adds 2 (the batch mean) where the
claim requires the batch total 4. The counters do add the batch size. -/
theorem C2_dc_accumulator_eval :
    dc_estimated_accumulate 2 2 (0, 0) 2 ex_samples = (2, 4) ∧
    mean_over_samples_then_sum_over_batch 2 2 ex_samples = 8 ∧
    dc_logged_accumulate 2 (0, 0) 2 ex_rewards = (2, 2) ∧
    reduce_sum_vec 2 ex_rewards = 4 ∧
    ((4 : ℚ) ≠ 8 ∧ (2 : ℚ) ≠ 4) := by
  refine ⟨?_, ?_, ?_, ?_, by norm_num, by norm_num⟩
  · norm_num [dc_estimated_accumulate, reduce_sum_scalar, reduce_mean_all,
      Fin.sum_univ_two, ex_samples, Prod.ext_iff]
  · norm_num [mean_over_samples_then_sum_over_batch, Fin.sum_univ_two, ex_samples]
  · norm_num [dc_logged_accumulate, reduce_sum_scalar, reduce_mean_vec,
      Fin.sum_univ_two, ex_rewards, Prod.ext_iff]
  · norm_num [reduce_sum_vec, Fin.sum_univ_two, ex_rewards]

/-- C5 counterexample: with batch size 2 and per-batch total reward 2, the
baseline after the very first accumulation is 1 = s/b, not s = 2 as the
claim states. -/
theorem C5_counterexample :
    baseline_value (accumulate_k 1 2 2) = 1 ∧
    baseline_value (accumulate_k 1 2 2) ≠ 2 := by
  have hst : accumulate_k 1 2 2 = (2, 2) := by
    norm_num [accumulate_k, reward_state_step]
  have h1 : baseline_value (accumulate_k 1 2 2) = 1 := by
    rw [baseline_value, hst]
    rw [show max (2 : ℚ) 1 = 2 from max_eq_left (by norm_num)]
    norm_num
  exact ⟨h1, by rw [h1]; norm_num⟩

/-- C5 amended: the baseline always equals sum / max(counter, 1), and after
k accumulations from zero state with constant batch size b >= 1 and constant
per-batch total reward s it equals s / b for every k >= 1 — including the
very first accumulation, where it is s / b (hence s only when b = 1); the
counter floor of 1 never engages since the counter is already b >= 1. -/
theorem C5_baseline_amended (k : ℕ) (b s : ℚ) (hk : 1 ≤ k) (hb : 1 ≤ b) :
    baseline_value (accumulate_k k b s) = s / b := by
  have hacc : ∀ n : ℕ, accumulate_k n b s = (n * b, n * s) := by
    intro n
    induction n with
    | zero => simp [accumulate_k]
    | succ m ih =>
      rw [accumulate_k, ih, reward_state_step]
      push_cast
      rw [Prod.mk.injEq]
      exact ⟨by ring, by ring⟩
  have hk1 : (1 : ℚ) ≤ (k : ℚ) := by exact_mod_cast hk
  have hkb : (1 : ℚ) ≤ (k : ℚ) * b := le_trans hk1 (by nlinarith)
  have hk0 : (k : ℚ) ≠ 0 := by linarith
  rw [baseline_value, hacc k]
  rw [show ((k : ℚ) * b, (k : ℚ) * s).1 = (k : ℚ) * b from rfl,
    show ((k : ℚ) * b, (k : ℚ) * s).2 = (k : ℚ) * s from rfl, max_eq_left hkb]
  exact mul_div_mul_left s b hk0

/-- Witness for C5's amended statement: three accumulations with batch size
2 and per-batch total 5 give baseline 5/2. -/
theorem C5_baseline_witness :
    baseline_value (accumulate_k 3 2 5) = 5 / 2 :=
  C5_baseline_amended 3 2 5 (by norm_num) (by norm_num)

/-- float applied across a JSON array of numbers returns them in order. -/
theorem float_list_num (qs : List ℚ) :
    float_list (qs.map JVal.num) = some qs := by
  induction qs with
  | nil => rfl
  | cons q rest ih => simp [float_list, py_float, ih]

/-- C4 counterexample: a response with non-2xx status 500 whose body is
well-formed JSON carrying a predictions list is scored successfully (the
code never inspects the status), refuting the claim that every non-2xx
response makes the reward computation fail. -/
theorem C4_counterexample :
    get_reward_from_service_response
      ⟨500, some (JVal.obj [(predictions_key, JVal.arr [JVal.num (1/2), JVal.num (9/10)])])⟩ =
      some [1/2, 9/10] ∧
    ¬(200 ≤ 500 ∧ 500 < 300) := by
  constructor
  · simp [get_reward_from_service_response, obj_get, parse_predictions,
      float_list, py_float]
  · norm_num

/-- C4 amended: a malformed JSON body or a well-formed one missing the
predictions field makes the reward computation fail (the raise aborts the
step, not the process), and on a body whose predictions field is a list of
numbers the floats are returned in order; the HTTP status code is never
inspected, so success or failure is independent of it (in particular a
non-2xx response with a well-formed predictions body does not fail). -/
theorem C4_remote_failure_amended :
    (∀ st : ℕ, get_reward_from_service_response ⟨st, none⟩ = none) ∧
    (∀ (st : ℕ) (fields : List (PyStr × JVal)),
      obj_get fields predictions_key = none →
      get_reward_from_service_response ⟨st, some (JVal.obj fields)⟩ = none) ∧
    (∀ (st st' : ℕ) (c : Option JVal),
      get_reward_from_service_response ⟨st, c⟩ =
        get_reward_from_service_response ⟨st', c⟩) ∧
    (∀ (st : ℕ) (qs : List ℚ),
      get_reward_from_service_response
        ⟨st, some (JVal.obj [(predictions_key, JVal.arr (qs.map JVal.num))])⟩ =
        some qs) := by
  refine ⟨fun st => rfl, ?_, ?_, ?_⟩
  · intro st fields h
    simp [get_reward_from_service_response, h]
  · intro st st' c
    rcases c with _ | j
    · rfl
    · cases j <;> rfl
  · intro st qs
    simp [get_reward_from_service_response, obj_get, parse_predictions,
      float_list_num]

/-- Witness for C4's amended statement: an empty JSON object (no
predictions field) fails, at status 200. -/
theorem C4_remote_failure_witness :
    get_reward_from_service_response ⟨200, some (JVal.obj [])⟩ = none :=
  C4_remote_failure_amended.2.1 200 [] rfl

/-- C1: reinforce_score returns, per batch entry, the negated detached
(reward - baseline) times the sentence log-probability, where the sentence
log-probability is the per-token log-softmax probability of the decoded
index summed over the whole time axis (no padding mask); its derivative is
the detached value of -(reward - baseline) times the derivative of the
sentence log-probability alone, so no reward or baseline derivative ever
enters; with no baseline, the reward alone is negated and detached. -/
theorem C1_reinforce_score (T B V : ℕ) (reward bl : Fin B → Dual)
    (decoded : Fin T → Fin B → Fin V) (logits : Fin T → Fin B → Fin V → Dual)
    (b : Fin B) :
    (reinforce_score T B V reward (some bl) decoded logits b).val =
      -((reward b).val - (bl b).val) *
        ∑ t, ((logits t b (decoded t b)).val -
          Real.log (∑ v, Real.exp ((logits t b v).val))) ∧
    (reinforce_score T B V reward (some bl) decoded logits b).deriv =
      -((reward b).val - (bl b).val) *
        ∑ t, ((logits t b (decoded t b)).deriv -
          (∑ v, (logits t b v).deriv * Real.exp ((logits t b v).val)) /
            ∑ v, Real.exp ((logits t b v).val)) ∧
    (reinforce_score T B V reward none decoded logits b).val =
      -(reward b).val *
        ∑ t, ((logits t b (decoded t b)).val -
          Real.log (∑ v, Real.exp ((logits t b v).val))) ∧
    (reinforce_score T B V reward none decoded logits b).deriv =
      -(reward b).val *
        ∑ t, ((logits t b (decoded t b)).deriv -
          (∑ v, (logits t b v).deriv * Real.exp ((logits t b v).val)) /
            ∑ v, Real.exp ((logits t b v).val)) := by
  refine ⟨?_, ?_, ?_, ?_⟩ <;>
    simp [reinforce_score, sparse_softmax_cross_entropy, Dual.mul,
      Dual.stop_gradient, Dual.neg, Dual.sub, Dual.sum, Dual.log, Dual.exp,
      neg_sub]
